import Mathlib

/-!
Verification development for the creator/assignment matching service.

The scoring pipeline (`src/services/matching-service/utils/matcher.js`), the
match endpoint (`src/services/matching-service/server.js`), the resilience
layer (`src/shared/services/pinecone.js`, `src/shared/services/bedrock.js`)
and the health aggregation (`src/shared/services/healthMonitor.js` together
with the service manager) are embedded shallowly.

Modelling conventions:
* JavaScript numbers are idealised as exact rationals (`ℚ`); every JS double
  is a rational, and the matcher performs only field arithmetic on them.
  `Math.pow(x, 0.5)` is embedded as `Real.sqrt`, so quantities downstream of
  the niche boost live in `ℝ`; `toFixed(4)` followed by `parseFloat` is
  embedded as rounding to an integer multiple of `1/10000`.
* Optional JS fields become `Option`; JS truthiness of a string field
  (`undefined`, `null` and `""` are falsy) is `strTruthy`; `x || d`
  defaulting is translated per use site.
* NaN propagation (relevant to one safety claim only) is modelled by the
  separate `JVal` domain in which arithmetic propagates `nan` exactly as JS
  float arithmetic, `Math.min` and `toFixed` do.
* `Array.prototype.sort(cmp)` is modelled by insertion sort with the same
  comparator; the comparator is antisymmetric, and insertion sort realises
  the adjacent-pair ordering guarantee the spec asserts.
-/

/-- Target audience sub-object of an assignment (`assignment.targetAudience`). -/
structure TargetAudience where
  locale : Option String
  demographic : Option String
deriving DecidableEq

/-- Assignment (input brief), fields as read by the matcher and the endpoint. -/
structure Assignment where
  topic : Option String
  keyTakeaway : Option String
  additionalContext : Option String
  targetAudience : Option TargetAudience
  creatorNiches : Option (List String)
  creatorValues : Option (List String)
  toneStyle : Option String
deriving DecidableEq

/-- Engagement style sub-object of a creator analysis. -/
structure EngagementStyle where
  tone : Option (List String)
deriving DecidableEq

/-- Creator analysis object (`creator.analysis`); the matcher dereferences it
unconditionally, so it is a required field, while its list/string members are
defended with `|| []` / `|| ''` in the source and are optional here. -/
structure Analysis where
  primaryNiches : Option (List String)
  secondaryNiches : Option (List String)
  apparentValues : Option (List String)
  audienceInterests : Option (List String)
  engagementStyle : Option EngagementStyle
  summary : Option String
deriving DecidableEq

/-- Creator catalog entry, restricted to the fields the matcher reads. -/
structure Creator where
  region : Option String
  heartCount : Option Nat
  followerCount : Option Nat
  analysis : Analysis
deriving DecidableEq

/-- JS `String.prototype.toLowerCase`, idealised to per-character lowering
(the tags, locales and tones the matcher folds are ASCII). Defined by a
structural map so that concrete instances evaluate. -/
def jsToLower (s : String) : String := ⟨s.data.map Char.toLower⟩

/-- JS truthiness of an optional string: `undefined`/`null`/`""` are falsy. -/
def strTruthy : Option String → Bool
  | none => false
  | some s => s ≠ ""

/-- JS `String.prototype.includes`: `containsStr s sub` holds when `sub`
occurs contiguously in `s`. -/
def containsStr (s sub : String) : Bool :=
  (List.range (s.toList.length + 1)).any fun i => sub.toList.isPrefixOf (s.toList.drop i)

/-- Drops empty fragments that are not at the boundary of the split list, so
that splitting on single whitespace characters agrees with the JS regex split
on whitespace runs. -/
def dropMidEmpty : List String → List String
  | [] => []
  | [x] => [x]
  | x :: xs => if x = "" then dropMidEmpty xs else x :: dropMidEmpty xs

/-- Splits a character list at every whitespace character, producing an
empty fragment between consecutive separators; structural recursion so that
concrete instances evaluate. -/
def splitChars : List Char → List Char → List String
  | [], acc => [String.mk acc.reverse]
  | c :: cs, acc =>
    if c.isWhitespace then String.mk acc.reverse :: splitChars cs []
    else splitChars cs (c :: acc)

/-- JS `str.split(/\s+/)`: split on maximal whitespace runs; a leading or
trailing run contributes an empty fragment, interior runs do not. -/
def splitWS (s : String) : List String :=
  match splitChars s.data [] with
  | [] => []
  | x :: xs => x :: dropMidEmpty xs

/-- Weight record of the `Matcher` constructor (`matcher.js` lines 4-11). -/
structure Weights where
  semanticSimilarity : ℚ
  nicheAlignment : ℚ
  audienceMatch : ℚ
  valueAlignment : ℚ

/-- The weights instance: semantic 0.7, niche 0.2, audience 0.05, value 0.05. -/
def weights : Weights :=
  { semanticSimilarity := 7/10
    nicheAlignment := 2/10
    audienceMatch := 1/20
    valueAlignment := 1/20 }

/-- `Matcher.calculateNicheAlignment`: integer count of requested niches that
occur (case-folded) among the creator's primary and secondary niches; 0 when
no niches are requested. -/
def calculateNicheAlignment (a : Assignment) (c : Creator) : ℕ :=
  match a.creatorNiches with
  | none => 0
  | some ns =>
    if ns.length = 0 then 0
    else
      let creatorNiches :=
        ((c.analysis.primaryNiches.getD []) ++ (c.analysis.secondaryNiches.getD [])).map
          jsToLower
      (ns.filter fun niche => creatorNiches.contains (jsToLower niche)).length

/-- `Matcher.calculateAudienceMatch`: multi-factor audience score.  Factor 1:
locale/region case-insensitive equality is worth 0.4.  Factor 2: fraction of
demographic words occurring in the joined audience interests or the summary,
worth up to 0.3.  Factor 3: tone overlap, worth 0.3.  Each factor is counted
only when its inputs are (JS-truthily) present; if no factor was evaluated
the result is 0. -/
def calculateAudienceMatch (a : Assignment) (c : Creator) : ℚ :=
  match a.targetAudience with
  | none => 0
  | some ta =>
    let localeOk := strTruthy ta.locale && strTruthy c.region
    let s1 : ℚ :=
      if localeOk then
        (if jsToLower (c.region.getD "") = jsToLower (ta.locale.getD "") then 2/5 else 0)
      else 0
    let f1 : ℕ := if localeOk then 1 else 0
    let demOk := strTruthy ta.demographic
    let audienceInterests :=
      String.intercalate " " ((c.analysis.audienceInterests.getD []).map jsToLower)
    let summary := jsToLower (c.analysis.summary.getD "")
    let demographicWords := splitWS (jsToLower (ta.demographic.getD ""))
    let matchedWords := demographicWords.filter fun word =>
      containsStr audienceInterests word || containsStr summary word
    let s2 : ℚ :=
      if demOk then
        (if 0 < matchedWords.length then
          (3/10) * ((matchedWords.length : ℚ) / (demographicWords.length : ℚ))
        else 0)
      else 0
    let f2 : ℕ := if demOk then 1 else 0
    let toneOk := strTruthy a.toneStyle && c.analysis.engagementStyle.isSome
    let requestedTone := jsToLower (a.toneStyle.getD "")
    let creatorTones :=
      (((c.analysis.engagementStyle.map EngagementStyle.tone).getD none).getD []).map
        jsToLower
    let toneMatch := creatorTones.any fun tone =>
      containsStr tone requestedTone || containsStr requestedTone tone
    let s3 : ℚ := if toneOk && toneMatch then 3/10 else 0
    let f3 : ℕ := if toneOk then 1 else 0
    if 0 < f1 + f2 + f3 then s1 + s2 + s3 else 0

/-- `Matcher.calculateValueAlignment`: matched values over requested values,
0 when no values are requested. -/
def calculateValueAlignment (a : Assignment) (c : Creator) : ℚ :=
  match a.creatorValues with
  | none => 0
  | some vs =>
    if vs.length = 0 then 0
    else
      let creatorValues := (c.analysis.apparentValues.getD []).map jsToLower
      ((vs.filter fun v => creatorValues.contains (jsToLower v)).length : ℚ) / (vs.length : ℚ)

/-- The `maxNiches` binding of `calculateMatch`:
`assignment.creatorNiches?.length || 1` — absent or empty lists yield 1. -/
def maxNiches (a : Assignment) : ℕ :=
  match a.creatorNiches with
  | none => 1
  | some ns => if ns.length = 0 then 1 else ns.length

/-- The `nicheMatchRatio` binding of `calculateMatch`. -/
def nicheMatchRatio (a : Assignment) (c : Creator) : ℚ :=
  (calculateNicheAlignment a c : ℚ) / (maxNiches a : ℚ)

/-- `parseFloat(x.toFixed(4))` on an exact rational: round to four decimals. -/
def round4Q (x : ℚ) : ℚ := (round (x * 10000) : ℚ) / 10000

/-- `parseFloat(x.toFixed(4))` on a real intermediate value. -/
noncomputable def round4R (x : ℝ) : ℚ := (round (x * 10000) : ℚ) / 10000

/-- Per-component score breakdown attached to a match.  In the source only
`semanticSimilarity` and `nicheBoost` pass through `toFixed(4)`. -/
structure ScoreBreakdown where
  semanticSimilarity : ℚ
  nicheAlignment : ℕ
  audienceMatch : ℚ
  valueAlignment : ℚ
  nicheBoost : ℚ
deriving DecidableEq

/-- A scored match as returned by `Matcher.calculateMatch`. -/
structure Match where
  creator : Creator
  matchScore : ℚ
  scoreBreakdown : ScoreBreakdown
deriving DecidableEq

/-- `Matcher.calculateMatch` (`matcher.js` lines 20-56): normalise the cosine
score to `[0,1]`, take the weighted base score, boost it by
`1 + sqrt(nicheMatchRatio)`, cap at 1 and round to four decimals; the
breakdown rounds `semanticSimilarity` and `nicheBoost` only. -/
noncomputable def calculateMatch (a : Assignment) (c : Creator) (semanticScore : ℚ) : Match :=
  let nicheScore := calculateNicheAlignment a c
  let audienceScore := calculateAudienceMatch a c
  let valueScore := calculateValueAlignment a c
  let normalizedSemanticScore : ℚ := (semanticScore + 1) / 2
  let ratio := nicheMatchRatio a c
  let nicheBoost : ℝ := Real.sqrt (ratio : ℝ)
  let baseScore : ℚ :=
    normalizedSemanticScore * weights.semanticSimilarity +
      ratio * weights.nicheAlignment +
      audienceScore * weights.audienceMatch +
      valueScore * weights.valueAlignment
  let totalScore : ℝ := (baseScore : ℝ) * (1 + nicheBoost)
  { creator := c
    matchScore := round4R (min 1 totalScore)
    scoreBreakdown :=
      { semanticSimilarity := round4Q normalizedSemanticScore
        nicheAlignment := nicheScore
        audienceMatch := audienceScore
        valueAlignment := valueScore
        nicheBoost := round4R nicheBoost } }

/-- The `followerCount || 1` defaulting used in the engagement denominator. -/
def jsOr1 (o : Option Nat) : ℚ :=
  match o with
  | none => 1
  | some n => if n = 0 then 1 else (n : ℚ)

/-- Engagement ratio `(heartCount || 0) / (followerCount || 1)` of a match. -/
def engagementRatio (m : Match) : ℚ :=
  (m.creator.heartCount.getD 0 : ℚ) / jsOr1 m.creator.followerCount

/-- `Matcher.breakTie`: engagement ratio descending, then follower count
descending. -/
def breakTie (matchA matchB : Match) : ℚ :=
  let engagementA := engagementRatio matchA
  let engagementB := engagementRatio matchB
  if engagementA ≠ engagementB then engagementB - engagementA
  else (matchB.creator.followerCount.getD 0 : ℚ) - (matchA.creator.followerCount.getD 0 : ℚ)

/-- The comparator passed to `matches.sort` in `Matcher.rankMatches`:
niche count difference; semantic similarity difference outside a 0.01
tolerance; match score difference outside a 0.001 tolerance; `breakTie`. -/
def matchCompare (a b : Match) : ℚ :=
  if b.scoreBreakdown.nicheAlignment ≠ a.scoreBreakdown.nicheAlignment then
    (b.scoreBreakdown.nicheAlignment : ℚ) - (a.scoreBreakdown.nicheAlignment : ℚ)
  else if 1/100 < |b.scoreBreakdown.semanticSimilarity - a.scoreBreakdown.semanticSimilarity| then
    b.scoreBreakdown.semanticSimilarity - a.scoreBreakdown.semanticSimilarity
  else if 1/1000 < |b.matchScore - a.matchScore| then
    b.matchScore - a.matchScore
  else breakTie a b

/-- Insert into an already processed list, stopping at the first position
where the comparator does not demand a swap (the self-insertion step of the
sort that models `Array.prototype.sort`). -/
def insertSorted (x : Match) : List Match → List Match
  | [] => [x]
  | y :: ys => if matchCompare x y ≤ 0 then x :: y :: ys else y :: insertSorted x ys

/-- `Matcher.rankMatches`: sort with `matchCompare`, modelled as a stable
insertion sort. -/
def rankMatches : List Match → List Match
  | [] => []
  | x :: xs => insertSorted x (rankMatches xs)

/-- Response shape of the match endpoint, restricted to the fields the
invariants speak about (`matches` list and the fallback flag). -/
structure MatchResponseM where
  matchList : List Match
  isFallback : Bool

/-- Scoring phase of `app.post('/matches')` in
`src/services/matching-service/server.js` (lines 140-188): `vres = none`
models a terminal failure of the embedding or vector-query step (the catch
branch setting `isFallback = true`); otherwise `vres` carries the
`(id, score)` candidates.  In fallback mode every creator of the catalog is
scored with semantic score 0; otherwise candidates absent from the catalog
are dropped.  Ranked results are truncated to the top 3. -/
noncomputable def matchPipeline (a : Assignment) (catalog : List (String × Creator))
    (vres : Option (List (String × ℚ))) : MatchResponseM :=
  match vres with
  | none =>
    let scoredMatches := (catalog.map Prod.snd).map fun c => calculateMatch a c 0
    if scoredMatches.isEmpty then ⟨[], true⟩
    else ⟨(rankMatches scoredMatches).take 3, true⟩
  | some candidates =>
    let scoredMatches := candidates.filterMap fun p =>
      (catalog.lookup p.1).map fun c => calculateMatch a c p.2
    if scoredMatches.isEmpty then ⟨[], false⟩
    else ⟨(rankMatches scoredMatches).take 3, false⟩

/-- First phase of the `/matches` handler: the only request validation is
the presence check `if (!assignment) return 400`; any present assignment
proceeds to the downstream embedding call. -/
inductive MatchPhase1 where
  | badRequest (msg : String)
  | embed (text : String)
deriving DecidableEq

/-- JS template-literal interpolation of a possibly-undefined field:
`undefined` prints as the string `"undefined"`. -/
def jsTemplateStr (o : Option String) : String := o.getD "undefined"

/-- The `assignmentText` binding of the handler:
`` `${assignment.topic} ${assignment.keyTakeaway} ${assignment.additionalContext}` ``. -/
def assignmentText (a : Assignment) : String :=
  jsTemplateStr a.topic ++ " " ++ jsTemplateStr a.keyTakeaway ++ " " ++
    jsTemplateStr a.additionalContext

/-- Validation phase of `app.post('/matches')` (`server.js` lines 132-146):
reject only a missing `assignment`, otherwise proceed to
`generateEmbedding(assignmentText)`. -/
def matchRequestPhase1 (assignmentField : Option Assignment) : MatchPhase1 :=
  match assignmentField with
  | none => MatchPhase1.badRequest "assignment is required"
  | some a => MatchPhase1.embed (assignmentText a)

/-- Circuit breaker states of the resilience layer
(`'CLOSED' | 'OPEN' | 'HALF_OPEN'`). -/
inductive CBState where
  | closed
  | opened
  | halfOpen
deriving DecidableEq

/-- Mutable breaker fields of `PineconeService` (identical in
`BedrockService` and the OpenAI service): state, failure counter and last
failure time (0 for `null`). -/
structure BreakerSt where
  state : CBState
  failureCount : ℕ
  lastFailureTime : ℕ
deriving DecidableEq

/-- Breaker failure threshold (`this.failureThreshold = 5`). -/
def failureThreshold : ℕ := 5

/-- Breaker reset timeout in milliseconds (`this.resetTimeout = 30000`). -/
def resetTimeout : ℕ := 30000

/-- `handleFailure` (`pinecone.js` lines 145-156): increment the counter,
stamp the failure time, and open the breaker when the counter reaches the
threshold. -/
def handleFailure (b : BreakerSt) (now : ℕ) : BreakerSt :=
  let failureCount := b.failureCount + 1
  { state := if failureThreshold ≤ failureCount then CBState.opened else b.state
    failureCount := failureCount
    lastFailureTime := now }

/-- Admission check of `executeWithCircuitBreaker` (`pinecone.js` lines
96-104): an `OPEN` breaker rejects the call (`none`) unless the reset
timeout has elapsed, in which case it moves to `HALF_OPEN` and admits. -/
def cbAdmit (b : BreakerSt) (now : ℕ) : Option BreakerSt :=
  match b.state with
  | CBState.opened =>
    if resetTimeout < now - b.lastFailureTime then some { b with state := CBState.halfOpen }
    else none
  | _ => some b

/-- Post-call bookkeeping of `executeWithCircuitBreaker` (lines 106-119): a
success closes the breaker and zeroes the counter only from `HALF_OPEN`;  a
terminal failure goes through `handleFailure`. -/
def cbAfter (b : BreakerSt) (now : ℕ) (success : Bool) : BreakerSt :=
  if success then
    (if b.state = CBState.halfOpen then
      { b with state := CBState.closed, failureCount := 0 }
    else b)
  else handleFailure b now

/-- One call through `executeWithCircuitBreaker`: a rejected call leaves the
state unchanged (the throw happens before any bookkeeping); an admitted call
runs and is accounted by `cbAfter`.  `success` is the terminal outcome after
the inner retry loop. -/
def cbCall (b : BreakerSt) (now : ℕ) (success : Bool) : BreakerSt :=
  match cbAdmit b now with
  | none => b
  | some b' => cbAfter b' now success

/-- Fold a sequence of timed call outcomes through the breaker. -/
def cbRun (b : BreakerSt) (events : List (ℕ × Bool)) : BreakerSt :=
  events.foldl (fun s e => cbCall s e.1 e.2) b

/-- The initial breaker state of a freshly constructed service. -/
def cbInit : BreakerSt := ⟨CBState.closed, 0, 0⟩

/-- Does a list of call outcomes contain `n` consecutive failures
(`false` entries)? -/
def hasConsecutiveFailures (n : ℕ) (outcomes : List Bool) : Bool :=
  (List.range (outcomes.length + 1)).any fun i =>
    decide (i + n ≤ outcomes.length) && ((outcomes.drop i).take n).all (fun o => !o)

/-- Error value thrown by a provider call, as the adapters classify it:
`name` (e.g. `'ThrottlingException'`) and optional transport `code`. -/
structure BErr where
  name : String
  code : Option String
deriving DecidableEq

/-- `BedrockService.isRetryableError` (`bedrock.js` lines 118-128). -/
def bedrockIsRetryableError (e : BErr) : Bool :=
  ["ThrottlingException", "ProvisionedThroughputExceededException",
    "InternalServerException", "ServiceUnavailableException",
    "ECONNRESET", "ETIMEDOUT"].contains e.name || e.code = some "ECONNRESET"

/-- `PineconeService.executeWithRetry` (`pinecone.js` lines 122-143),
parameterised by the outcome of each (1-indexed) attempt: every error is
retried until the attempt budget runs out; the pair carries the final
outcome and the number of attempts performed.  `remaining` counts the
attempts still allowed after the current one. -/
def pineconeRetryAux {α : Type} (res : ℕ → Except BErr α) :
    (attempt : ℕ) → (remaining : ℕ) → Except BErr α × ℕ
  | attempt, 0 => (res attempt, attempt)
  | attempt, remaining + 1 =>
    match res attempt with
    | Except.ok v => (Except.ok v, attempt)
    | Except.error _ => pineconeRetryAux res (attempt + 1) remaining

/-- Pinecone retry entry point: `maxRetries = 3` attempts in total. -/
def pineconeExecuteWithRetry {α : Type} (res : ℕ → Except BErr α) : Except BErr α × ℕ :=
  pineconeRetryAux res 1 2

/-- `BedrockService.executeWithRetry` (`bedrock.js` lines 81-116): an error
is retried only when attempts remain and the error is retryable (throttling
errors are in the retryable list); otherwise the loop breaks and the last
error propagates. -/
def bedrockRetryAux {α : Type} (res : ℕ → Except BErr α) :
    (attempt : ℕ) → (remaining : ℕ) → Except BErr α × ℕ
  | attempt, 0 => (res attempt, attempt)
  | attempt, remaining + 1 =>
    match res attempt with
    | Except.ok v => (Except.ok v, attempt)
    | Except.error e =>
      if bedrockIsRetryableError e then bedrockRetryAux res (attempt + 1) remaining
      else (Except.error e, attempt)

/-- Bedrock retry entry point: `maxRetries = 3` attempts in total. -/
def bedrockExecuteWithRetry {α : Type} (res : ℕ → Except BErr α) : Except BErr α × ℕ :=
  bedrockRetryAux res 1 2

/-- A registered health-monitor service as `getOverallHealth` reads it:
name, criticality flag, and the last recorded status string. -/
structure ServiceEntry where
  name : String
  critical : Bool
  lastStatus : String
deriving DecidableEq

/-- `HealthMonitor.getOverallHealth` (`healthMonitor.js` lines 140-171):
`'critical'` when some critical service is `'unhealthy'`, else `'degraded'`
when any service is `'unhealthy'`, else `'healthy'`. -/
def getOverallHealthStatus (services : List ServiceEntry) : String :=
  let criticalServices := services.filter fun s => s.critical
  let unhealthyCritical := criticalServices.filter fun s => s.lastStatus = "unhealthy"
  let unhealthyServices := services.filter fun s => s.lastStatus = "unhealthy"
  if 0 < unhealthyCritical.length then "critical"
  else if 0 < unhealthyServices.length then "degraded"
  else "healthy"

/-- Status computed by the pinecone health check registered in
`ServiceManager.registerHealthChecks` (`serviceManager` lines 352-363):
unconfigured or an `OPEN` breaker or failing stats mean `'unhealthy'`. -/
def pineconeHealthCheckStatus (configured : Bool) (cb : CBState) (statsOk : Bool) : String :=
  if !configured then "unhealthy"
  else if cb = CBState.opened then "unhealthy"
  else if statsOk then "healthy" else "unhealthy"

/-- Status computed by the AI-provider health check registered in
`ServiceManager.registerHealthChecks` (lines 366-372); the one provider
serves both the embedding and the completion operations. -/
def aiHealthCheckStatus (configured : Bool) (cb : CBState) : String :=
  if !configured then "unhealthy"
  else if cb = CBState.opened then "unhealthy" else "healthy"

/-- The service list registered by `ServiceManager.registerHealthChecks`:
`pinecone` and the primary AI provider, both with `critical: true`; no
non-critical service is registered. -/
def registeredServices (aiName : String) (pineconeStatus aiStatus : String) :
    List ServiceEntry :=
  [{ name := "pinecone", critical := true, lastStatus := pineconeStatus },
   { name := aiName, critical := true, lastStatus := aiStatus }]

/-- JS double extended with `NaN`: the payload of `num` is the exact real
value of a finite double.  Used to state the non-finite-score policy. -/
inductive JVal where
  | nan : JVal
  | num : ℝ → JVal

/-- JS addition on possibly-NaN values. -/
noncomputable def JVal.add : JVal → JVal → JVal
  | JVal.num a, JVal.num b => JVal.num (a + b)
  | _, _ => JVal.nan

/-- JS multiplication on possibly-NaN values (`NaN * x = NaN`, even for 0). -/
noncomputable def JVal.mul : JVal → JVal → JVal
  | JVal.num a, JVal.num b => JVal.num (a * b)
  | _, _ => JVal.nan

/-- JS division on possibly-NaN values; only finite nonzero divisors occur
in the matcher (the literal 2). -/
noncomputable def JVal.div : JVal → JVal → JVal
  | JVal.num a, JVal.num b => JVal.num (a / b)
  | _, _ => JVal.nan

/-- `Math.min` on possibly-NaN values: any NaN operand yields NaN. -/
noncomputable def JVal.jmin : JVal → JVal → JVal
  | JVal.num a, JVal.num b => JVal.num (min a b)
  | _, _ => JVal.nan

/-- `parseFloat(x.toFixed(4))` on a possibly-NaN value: `NaN.toFixed(4)` is
the string `"NaN"` and parses back to NaN. -/
noncomputable def JVal.toFixed4 : JVal → JVal
  | JVal.nan => JVal.nan
  | JVal.num x => JVal.num (((round (x * 10000) : ℤ) : ℝ) / 10000)

/-- Breakdown of `calculateMatch` in the NaN-aware domain: only the
semantic-score-dependent fields can become NaN. -/
structure ScoreBreakdownJS where
  semanticSimilarity : JVal
  nicheAlignment : ℕ
  audienceMatch : ℚ
  valueAlignment : ℚ
  nicheBoost : JVal

/-- Match result of `calculateMatch` in the NaN-aware domain. -/
structure MatchJS where
  creator : Creator
  matchScore : JVal
  scoreBreakdown : ScoreBreakdownJS

/-- `Matcher.calculateMatch` re-read over the NaN-aware number domain: the
exact same arithmetic as `calculateMatch`, with the operations touching the
raw `semanticScore` performed by the JS NaN-propagating versions.  The
source has no finiteness check anywhere. -/
noncomputable def calculateMatchJS (a : Assignment) (c : Creator)
    (semanticScore : JVal) : MatchJS :=
  let nicheScore := calculateNicheAlignment a c
  let audienceScore := calculateAudienceMatch a c
  let valueScore := calculateValueAlignment a c
  let normalizedSemanticScore := (semanticScore.add (JVal.num 1)).div (JVal.num 2)
  let ratio := nicheMatchRatio a c
  let nicheBoost : ℝ := Real.sqrt (ratio : ℝ)
  let baseScore :=
    (((normalizedSemanticScore.mul (JVal.num (weights.semanticSimilarity : ℝ))).add
        (JVal.num ((ratio : ℝ) * (weights.nicheAlignment : ℝ)))).add
      (JVal.num ((audienceScore : ℝ) * (weights.audienceMatch : ℝ)))).add
      (JVal.num ((valueScore : ℝ) * (weights.valueAlignment : ℝ)))
  let totalScore := baseScore.mul ((JVal.num 1).add (JVal.num nicheBoost))
  { creator := c
    matchScore := ((JVal.num 1).jmin totalScore).toFixed4
    scoreBreakdown :=
      { semanticSimilarity := normalizedSemanticScore.toFixed4
        nicheAlignment := nicheScore
        audienceMatch := audienceScore
        valueAlignment := valueScore
        nicheBoost := (JVal.num nicheBoost).toFixed4 } }

/-- An all-absent analysis record, used for concrete instances. -/
def emptyAnalysis : Analysis :=
  { primaryNiches := none, secondaryNiches := none, apparentValues := none,
    audienceInterests := none, engagementStyle := none, summary := none }

/-- A creator with every optional field absent. -/
def emptyCreator : Creator :=
  { region := none, heartCount := none, followerCount := none, analysis := emptyAnalysis }

/-- An assignment with every field absent. -/
def emptyAssignment : Assignment :=
  { topic := none, keyTakeaway := none, additionalContext := none, targetAudience := none,
    creatorNiches := none, creatorValues := none, toneStyle := none }

/-- The five-key descending rank order between two matches, as the spec
words it: niche count; semantic similarity with ties inside 0.01; match
score with ties inside 0.001; engagement ratio; follower count. -/
def RankedBefore (a b : Match) : Prop :=
  b.scoreBreakdown.nicheAlignment < a.scoreBreakdown.nicheAlignment ∨
  (a.scoreBreakdown.nicheAlignment = b.scoreBreakdown.nicheAlignment ∧
    ((1/100 < |a.scoreBreakdown.semanticSimilarity - b.scoreBreakdown.semanticSimilarity| ∧
      b.scoreBreakdown.semanticSimilarity < a.scoreBreakdown.semanticSimilarity) ∨
     (|a.scoreBreakdown.semanticSimilarity - b.scoreBreakdown.semanticSimilarity| ≤ 1/100 ∧
      ((1/1000 < |a.matchScore - b.matchScore| ∧ b.matchScore < a.matchScore) ∨
       (|a.matchScore - b.matchScore| ≤ 1/1000 ∧
        (engagementRatio b < engagementRatio a ∨
         (engagementRatio a = engagementRatio b ∧
          b.creator.followerCount.getD 0 ≤ a.creator.followerCount.getD 0)))))))

/-- C5 counterexample.  A successful call in the `CLOSED` state leaves the
failure counter at 4 (it is reset only from `HALF_OPEN`), and the breaker
opens after the event sequence fail, fail, fail, fail, success, fail even
though it contains no 5 consecutive failures. -/
theorem c5_success_no_reset_counterexample :
    cbCall ⟨CBState.closed, 4, 0⟩ 0 true = ⟨CBState.closed, 4, 0⟩ ∧
    (cbRun cbInit [(0, false), (0, false), (0, false), (0, false), (0, true), (0, false)]).state
      = CBState.opened ∧
    hasConsecutiveFailures 5 [false, false, false, false, true, false] = false := by
  decide

/-- C5 (amended).  The failure counter is zeroed by a success only from the
`HALF_OPEN` state; in `CLOSED` a success changes nothing, a terminal failure
always increments the counter, and the breaker is `OPEN` after a failure
exactly when the incremented counter reaches the threshold. -/
theorem c5_failure_counter_reset_policy (b : BreakerSt) (now : ℕ)
    (h : b.state ≠ CBState.opened) :
    (cbCall b now true).failureCount =
      (if b.state = CBState.halfOpen then 0 else b.failureCount) ∧
    (cbCall b now true).state =
      (if b.state = CBState.halfOpen then CBState.closed else b.state) ∧
    (cbCall b now false).failureCount = b.failureCount + 1 ∧
    ((cbCall b now false).state = CBState.opened ↔ failureThreshold ≤ b.failureCount + 1) := by
  obtain ⟨st, fc, lt⟩ := b
  cases st with
  | closed =>
    refine ⟨by simp [cbCall, cbAdmit, cbAfter], by simp [cbCall, cbAdmit, cbAfter], ?_, ?_⟩
    · simp [cbCall, cbAdmit, cbAfter, handleFailure]
    · simp only [cbCall, cbAdmit, cbAfter, handleFailure]
      split_ifs with hth <;> simp_all
  | opened => exact absurd rfl h
  | halfOpen =>
    refine ⟨by simp [cbCall, cbAdmit, cbAfter], by simp [cbCall, cbAdmit, cbAfter], ?_, ?_⟩
    · simp [cbCall, cbAdmit, cbAfter, handleFailure]
    · simp only [cbCall, cbAdmit, cbAfter, handleFailure]
      split_ifs with hth <;> simp_all

/-- C5 witness: the amended statement applied to a `CLOSED` breaker with 4
accumulated failures at time 0. -/
theorem c5_failure_counter_reset_policy_witness :
    ((⟨CBState.closed, 4, 0⟩ : BreakerSt).state ≠ CBState.opened) ∧
    (cbCall ⟨CBState.closed, 4, 0⟩ 0 false).failureCount = 5 :=
  ⟨by decide, (c5_failure_counter_reset_policy ⟨CBState.closed, 4, 0⟩ 0 (by decide)).2.2.1⟩

/-- Attempt-count bound for the pinecone retry loop. -/
theorem pineconeRetryAux_attempts_le {α : Type} (res : ℕ → Except BErr α) :
    ∀ (remaining attempt : ℕ), (pineconeRetryAux res attempt remaining).2 ≤ attempt + remaining
  | 0, attempt => by simp [pineconeRetryAux]
  | remaining + 1, attempt => by
    rw [pineconeRetryAux]
    cases hres : res attempt with
    | ok v => simp
    | error e =>
      have h := pineconeRetryAux_attempts_le res remaining (attempt + 1)
      simpa [Nat.add_assoc, Nat.add_comm 1 remaining] using h

/-- Attempt-count bound for the bedrock retry loop. -/
theorem bedrockRetryAux_attempts_le {α : Type} (res : ℕ → Except BErr α) :
    ∀ (remaining attempt : ℕ), (bedrockRetryAux res attempt remaining).2 ≤ attempt + remaining
  | 0, attempt => by simp [bedrockRetryAux]
  | remaining + 1, attempt => by
    rw [bedrockRetryAux]
    cases hres : res attempt with
    | ok v => simp
    | error e =>
      by_cases hr : bedrockIsRetryableError e
      · have h := bedrockRetryAux_attempts_le res remaining (attempt + 1)
        simp only [hr, if_true]
        omega
      · simp [hr]

/-- The pinecone retry loop spends its whole attempt budget on a constant
error. -/
theorem pineconeRetryAux_const_error {α : Type} (e : BErr) :
    ∀ (remaining attempt : ℕ),
      pineconeRetryAux (fun _ => (Except.error e : Except BErr α)) attempt remaining =
        (Except.error e, attempt + remaining)
  | 0, attempt => by simp [pineconeRetryAux]
  | remaining + 1, attempt => by
    rw [pineconeRetryAux]
    have h := pineconeRetryAux_const_error (α := α) e remaining (attempt + 1)
    simpa [Nat.add_assoc, Nat.add_comm 1 remaining] using h

/-- C6 counterexample.  `ValidationException` is not retryable by the
adapters' own classification, yet the pinecone retry loop still performs all
3 attempts on it instead of propagating it immediately. -/
theorem c6_pinecone_retries_nonretryable_counterexample :
    pineconeExecuteWithRetry
        (fun _ => (Except.error ⟨"ValidationException", none⟩ : Except BErr Unit)) =
      (Except.error ⟨"ValidationException", none⟩, 3) ∧
    bedrockIsRetryableError ⟨"ValidationException", none⟩ = false := by
  exact ⟨pineconeRetryAux_const_error ⟨"ValidationException", none⟩ 2 1, by decide⟩

/-- C6 (amended).  The bedrock adapter propagates a non-retryable first
error after a single attempt; both retry loops are bounded by 3 attempts;
the pinecone adapter, which never classifies, spends all 3 attempts even on
a permanently failing non-retryable error. -/
theorem c6_retry_classification (α : Type) (res : ℕ → Except BErr α) (e : BErr)
    (h1 : res 1 = Except.error e) (h2 : bedrockIsRetryableError e = false) :
    bedrockExecuteWithRetry res = (Except.error e, 1) ∧
    (∀ res' : ℕ → Except BErr α, (bedrockExecuteWithRetry res').2 ≤ 3 ∧
      (pineconeExecuteWithRetry res').2 ≤ 3) ∧
    pineconeExecuteWithRetry (fun _ => (Except.error e : Except BErr α)) =
      (Except.error e, 3) := by
  refine ⟨?_, fun res' => ⟨?_, ?_⟩, ?_⟩
  · simp [bedrockExecuteWithRetry, bedrockRetryAux, h1, h2]
  · exact bedrockRetryAux_attempts_le res' 2 1
  · exact pineconeRetryAux_attempts_le res' 2 1
  · exact pineconeRetryAux_const_error e 2 1

/-- C6 witness: the amended statement at a constant `ValidationException`
outcome over the unit result type. -/
theorem c6_retry_classification_witness :
    ((fun _ => (Except.error ⟨"ValidationException", none⟩ : Except BErr Unit)) 1 =
        Except.error ⟨"ValidationException", none⟩ ∧
      bedrockIsRetryableError ⟨"ValidationException", none⟩ = false) ∧
    bedrockExecuteWithRetry
        (fun _ => (Except.error ⟨"ValidationException", none⟩ : Except BErr Unit)) =
      (Except.error ⟨"ValidationException", none⟩, 1) :=
  ⟨⟨rfl, by decide⟩,
    (c6_retry_classification Unit _ ⟨"ValidationException", none⟩ rfl (by decide)).1⟩

/-- C7 counterexample.  The completion model is served by the AI provider,
whose health check is registered with `critical: true`; with the vector
index healthy and the AI breaker `OPEN`, the aggregated status is
`critical`, not `degraded`. -/
theorem c7_completion_breaker_critical_counterexample :
    getOverallHealthStatus
        (registeredServices "openai" (pineconeHealthCheckStatus true CBState.closed true)
          (aiHealthCheckStatus true CBState.opened)) = "critical" ∧
    ("critical" : String) ≠ "degraded" := by
  decide

/-- The `critical` branch of `getOverallHealth`, characterised: the
aggregate is `critical` exactly when some registered critical service last
reported `unhealthy`. -/
theorem getOverallHealthStatus_critical_iff (services : List ServiceEntry) :
    getOverallHealthStatus services = "critical" ↔
      ∃ s ∈ services, s.critical = true ∧ s.lastStatus = "unhealthy" := by
  simp only [getOverallHealthStatus]
  split_ifs with h1 h2
  · constructor
    · intro _
      obtain ⟨s, hs⟩ := List.length_pos_iff_exists_mem.mp h1
      obtain ⟨hs1, hs2⟩ := List.mem_filter.mp hs
      obtain ⟨hs3, hs4⟩ := List.mem_filter.mp hs1
      exact ⟨s, hs3, hs4, of_decide_eq_true hs2⟩
    · intro _; rfl
  · constructor
    · intro habs; exact absurd habs (by decide)
    · rintro ⟨s, hmem, hcrit, hstatus⟩
      exact absurd
        (List.length_pos_iff_exists_mem.mpr
          ⟨s, List.mem_filter.mpr
            ⟨List.mem_filter.mpr ⟨hmem, hcrit⟩, decide_eq_true hstatus⟩⟩) h1
  · constructor
    · intro habs; exact absurd habs (by decide)
    · rintro ⟨s, hmem, hcrit, hstatus⟩
      exact absurd
        (List.length_pos_iff_exists_mem.mpr
          ⟨s, List.mem_filter.mpr
            ⟨List.mem_filter.mpr ⟨hmem, hcrit⟩, decide_eq_true hstatus⟩⟩) h1

/-- C7 (amended).  The aggregate is `critical` exactly when some registered
critical dependency reports `unhealthy`; every dependency registered by the
service manager (the vector index and the single AI provider serving both
embedding and completion) is critical, and an `OPEN` AI breaker therefore
yields `critical` regardless of the vector index's state. -/
theorem c7_overall_health_aggregation :
    (∀ services : List ServiceEntry,
      getOverallHealthStatus services = "critical" ↔
        ∃ s ∈ services, s.critical = true ∧ s.lastStatus = "unhealthy") ∧
    (∀ aiName pineconeStatus : String,
      (registeredServices aiName pineconeStatus (aiHealthCheckStatus true CBState.opened)).all
        (fun s => s.critical) = true) ∧
    (∀ aiName pineconeStatus : String,
      getOverallHealthStatus
        (registeredServices aiName pineconeStatus (aiHealthCheckStatus true CBState.opened)) =
        "critical") := by
  refine ⟨getOverallHealthStatus_critical_iff, ?_, ?_⟩
  · intro aiName pineconeStatus
    simp [registeredServices]
  · intro aiName pineconeStatus
    rw [getOverallHealthStatus_critical_iff]
    refine ⟨⟨aiName, true, "unhealthy"⟩, ?_, rfl, rfl⟩
    simp [registeredServices, aiHealthCheckStatus]

/-- C8 counterexample.  An assignment object with `topic`, `keyTakeaway` and
`additionalContext` all missing is not rejected: the handler proceeds to the
embedding call with the fields interpolated as the string `"undefined"`. -/
theorem c8_missing_fields_not_validated_counterexample :
    emptyAssignment.topic = none ∧
    matchRequestPhase1 (some emptyAssignment) =
      MatchPhase1.embed "undefined undefined undefined" := by
  decide

/-- C8 (amended).  The only validation in the handler is the presence check
on `assignment` itself: a missing assignment is answered with the 400
response and nothing downstream runs, while any present assignment — whatever
fields it lacks — always reaches the embedding call. -/
theorem c8_only_presence_validated :
    matchRequestPhase1 none = MatchPhase1.badRequest "assignment is required" ∧
    (∀ a : Assignment, matchRequestPhase1 (some a) = MatchPhase1.embed (assignmentText a)) ∧
    (∀ (a : Assignment) (msg : String), matchRequestPhase1 (some a) ≠ MatchPhase1.badRequest msg) := by
  refine ⟨rfl, fun a => rfl, fun a msg h => ?_⟩
  simp [matchRequestPhase1] at h

/-- Lower bound of the multi-factor audience score. -/
theorem calculateAudienceMatch_nonneg (a : Assignment) (c : Creator) :
    0 ≤ calculateAudienceMatch a c := by
  unfold calculateAudienceMatch
  cases a.targetAudience with
  | none => simp
  | some ta =>
    simp only
    split_ifs <;>
      positivity

/-- Upper bound of the multi-factor audience score: the three factors are
worth at most 0.4, 0.3 and 0.3. -/
theorem calculateAudienceMatch_le_one (a : Assignment) (c : Creator) :
    calculateAudienceMatch a c ≤ 1 := by
  unfold calculateAudienceMatch
  cases a.targetAudience with
  | none => simp
  | some ta =>
    simp only
    have hdiv : ∀ (ws : List String) (p : String → Bool), 0 < (ws.filter p).length →
        ((ws.filter p).length : ℚ) / (ws.length : ℚ) ≤ 1 := by
      intro ws p h
      have hle : (ws.filter p).length ≤ ws.length := List.length_filter_le p ws
      rw [div_le_one (by exact_mod_cast lt_of_lt_of_le h hle)]
      exact_mod_cast hle
    split_ifs with h1 h2 h3 h4 h5 h6 h7 h8 h9 h10 h11 h12 h13 h14 <;>
      first
        | linarith [hdiv (splitWS (jsToLower (ta.demographic.getD "")))
            (fun word => containsStr (String.intercalate " "
              ((c.analysis.audienceInterests.getD []).map jsToLower)) word ||
              containsStr (jsToLower (c.analysis.summary.getD "")) word) (by assumption)]
        | norm_num

/-- The audienceMatch field of the breakdown is the raw (unrounded)
multi-factor audience score. -/
theorem scoreBreakdown_audienceMatch (a : Assignment) (c : Creator) (s : ℚ) :
    (calculateMatch a c s).scoreBreakdown.audienceMatch = calculateAudienceMatch a c := rfl

/-- The valueAlignment field of the breakdown is the raw (unrounded) value
score. -/
theorem scoreBreakdown_valueAlignment (a : Assignment) (c : Creator) (s : ℚ) :
    (calculateMatch a c s).scoreBreakdown.valueAlignment = calculateValueAlignment a c := rfl

/-- The nicheAlignment field of the breakdown is the integer niche count. -/
theorem scoreBreakdown_nicheAlignment (a : Assignment) (c : Creator) (s : ℚ) :
    (calculateMatch a c s).scoreBreakdown.nicheAlignment = calculateNicheAlignment a c := rfl

/-- The semanticSimilarity field of the breakdown is the normalised cosine,
rounded to four decimals. -/
theorem scoreBreakdown_semanticSimilarity (a : Assignment) (c : Creator) (s : ℚ) :
    (calculateMatch a c s).scoreBreakdown.semanticSimilarity =
      round4Q ((s + 1) / 2) := rfl

/-- The nicheBoost field of the breakdown is the square root of the niche
ratio, rounded to four decimals. -/
theorem scoreBreakdown_nicheBoost (a : Assignment) (c : Creator) (s : ℚ) :
    (calculateMatch a c s).scoreBreakdown.nicheBoost =
      round4R (Real.sqrt ((nicheMatchRatio a c : ℚ) : ℝ)) := rfl

/-- C2 counterexample.  With `targetAudience.locale = "CA"` present and
case-insensitively equal to `creator.region = "ca"`, the audienceMatch
component is 0.4 — a value strictly between 0 and 1 — not 1. -/
theorem c2_audience_binary_counterexample :
    (calculateMatch
        { emptyAssignment with targetAudience := some ⟨some "CA", none⟩ }
        { emptyCreator with region := some "ca" } 0).scoreBreakdown.audienceMatch = 2/5 ∧
    (2/5 : ℚ) ≠ 1 ∧ (0 : ℚ) < 2/5 ∧ (2/5 : ℚ) < 1 := by
  refine ⟨?_, by norm_num, by norm_num, by norm_num⟩
  rw [scoreBreakdown_audienceMatch]
  simp +decide [calculateAudienceMatch, strTruthy, emptyAssignment, emptyCreator, emptyAnalysis]

/-- C2 (amended).  The audienceMatch component is a weighted multi-factor
score, not a binary one: with only the locale factor evaluable (locale
present, demographic and tone absent, region present), it equals 0.4 when
the locale case-insensitively equals the region and 0 otherwise; in general
it lies in `[0, 1]` and is 0 whenever `targetAudience` is absent. -/
theorem c2_audience_locale_worth (a : Assignment) (c : Creator) (l r : String) (s : ℚ)
    (h1 : a.targetAudience = some ⟨some l, none⟩) (h2 : a.toneStyle = none)
    (h3 : c.region = some r) (h4 : l ≠ "") (h5 : r ≠ "") :
    (calculateMatch a c s).scoreBreakdown.audienceMatch =
      (if jsToLower r = jsToLower l then 2/5 else 0) ∧
    (∀ (x : Assignment) (y : Creator),
      0 ≤ calculateAudienceMatch x y ∧ calculateAudienceMatch x y ≤ 1) ∧
    (∀ (x : Assignment) (y : Creator), x.targetAudience = none →
      calculateAudienceMatch x y = 0) := by
  refine ⟨?_, fun x y => ⟨calculateAudienceMatch_nonneg x y, calculateAudienceMatch_le_one x y⟩,
    fun x y h => by unfold calculateAudienceMatch; rw [h]⟩
  rw [scoreBreakdown_audienceMatch]
  unfold calculateAudienceMatch
  rw [h1]
  simp only [h2, h3, strTruthy]
  simp [h4, h5]

/-- C2 witness: the amended statement at locale "CA" versus region "ca". -/
theorem c2_audience_locale_worth_witness :
    (({ emptyAssignment with targetAudience := some ⟨some "CA", none⟩ } : Assignment).toneStyle
        = none ∧ ("CA" : String) ≠ "" ∧ ("ca" : String) ≠ "") ∧
    (calculateMatch { emptyAssignment with targetAudience := some ⟨some "CA", none⟩ }
        { emptyCreator with region := some "ca" } 0).scoreBreakdown.audienceMatch =
      (if jsToLower "ca" = jsToLower "CA" then 2/5 else 0) :=
  ⟨⟨rfl, by decide, by decide⟩,
    (c2_audience_locale_worth _ _ "CA" "ca" 0 rfl rfl rfl (by decide) (by decide)).1⟩

/-- Rounding to an integer is monotone. -/
theorem round_mono_real {x y : ℝ} (h : x ≤ y) : round x ≤ round y := by
  rw [round_eq, round_eq]
  exact Int.floor_le_floor (by linarith)

/-- Four-decimal rounding preserves nonnegativity. -/
theorem round4R_nonneg {x : ℝ} (h : 0 ≤ x) : 0 ≤ round4R x := by
  unfold round4R
  have h1 : (0 : ℤ) ≤ round (x * 10000) := by
    have h2 := round_mono_real (x := (0 : ℝ)) (y := x * 10000) (by positivity)
    simpa using h2
  have h3 : (0 : ℚ) ≤ (round (x * 10000) : ℚ) := by exact_mod_cast h1
  positivity

/-- Four-decimal rounding of a value at most 1 is at most 1. -/
theorem round4R_le_one {x : ℝ} (h : x ≤ 1) : round4R x ≤ 1 := by
  unfold round4R
  have h1 : round (x * 10000) ≤ (10000 : ℤ) := by
    have h2 := round_mono_real (x := x * 10000) (y := (10000 : ℝ)) (by linarith)
    simpa using h2
  rw [div_le_one (by norm_num)]
  exact_mod_cast h1

/-- The value score is nonnegative. -/
theorem calculateValueAlignment_nonneg (a : Assignment) (c : Creator) :
    0 ≤ calculateValueAlignment a c := by
  unfold calculateValueAlignment
  cases a.creatorValues with
  | none => simp
  | some vs =>
    simp only
    split_ifs <;> positivity

/-- The niche match ratio is nonnegative. -/
theorem nicheMatchRatio_nonneg (a : Assignment) (c : Creator) :
    0 ≤ nicheMatchRatio a c := by
  unfold nicheMatchRatio
  positivity

/-- The match score, written out: capped weighted base times the niche
boost factor, rounded to four decimals. -/
theorem calculateMatch_matchScore (a : Assignment) (c : Creator) (s : ℚ) :
    (calculateMatch a c s).matchScore =
      round4R (min 1
        ((((s + 1) / 2 * weights.semanticSimilarity +
            nicheMatchRatio a c * weights.nicheAlignment +
            calculateAudienceMatch a c * weights.audienceMatch +
            calculateValueAlignment a c * weights.valueAlignment : ℚ) : ℝ) *
          (1 + Real.sqrt ((nicheMatchRatio a c : ℚ) : ℝ)))) := rfl

/-- C1 (amended).  For cosine scores in `[-1, 1]` the match score is
`min(1, base * (1 + sqrt(nicheMatchRatio)))` rounded to four decimals,
where `base` is the 0.7/0.2/0.05/0.05-weighted sum, and it lies in
`[0, 1]`; but only `semanticSimilarity` and `nicheBoost` are rounded in the
breakdown — `audienceMatch`, `valueAlignment` and the integer
`nicheAlignment` are returned unrounded. -/
theorem c1_composite_score_formula (a : Assignment) (c : Creator) (s : ℚ)
    (h1 : -1 ≤ s) (h2 : s ≤ 1) :
    (calculateMatch a c s).matchScore =
      round4R (min 1
        ((((s + 1) / 2 * (7/10) + nicheMatchRatio a c * (2/10) +
            calculateAudienceMatch a c * (1/20) +
            calculateValueAlignment a c * (1/20) : ℚ) : ℝ) *
          (1 + Real.sqrt ((nicheMatchRatio a c : ℚ) : ℝ)))) ∧
    0 ≤ (calculateMatch a c s).matchScore ∧
    (calculateMatch a c s).matchScore ≤ 1 ∧
    (calculateMatch a c s).scoreBreakdown.semanticSimilarity = round4Q ((s + 1) / 2) ∧
    (calculateMatch a c s).scoreBreakdown.nicheBoost =
      round4R (Real.sqrt ((nicheMatchRatio a c : ℚ) : ℝ)) ∧
    (calculateMatch a c s).scoreBreakdown.audienceMatch = calculateAudienceMatch a c ∧
    (calculateMatch a c s).scoreBreakdown.valueAlignment = calculateValueAlignment a c ∧
    (calculateMatch a c s).scoreBreakdown.nicheAlignment = calculateNicheAlignment a c := by
  have hsem : 0 ≤ (s + 1) / 2 := by linarith
  have hratio := nicheMatchRatio_nonneg a c
  have haud := calculateAudienceMatch_nonneg a c
  have hval := calculateValueAlignment_nonneg a c
  have hbase : 0 ≤ ((s + 1) / 2 * weights.semanticSimilarity +
      nicheMatchRatio a c * weights.nicheAlignment +
      calculateAudienceMatch a c * weights.audienceMatch +
      calculateValueAlignment a c * weights.valueAlignment : ℚ) := by
    have w1 : (0:ℚ) ≤ weights.semanticSimilarity := by norm_num [weights]
    have w2 : (0:ℚ) ≤ weights.nicheAlignment := by norm_num [weights]
    have w3 : (0:ℚ) ≤ weights.audienceMatch := by norm_num [weights]
    have w4 : (0:ℚ) ≤ weights.valueAlignment := by norm_num [weights]
    have := mul_nonneg hsem w1
    have := mul_nonneg hratio w2
    have := mul_nonneg haud w3
    have := mul_nonneg hval w4
    linarith
  have hsqrt := Real.sqrt_nonneg ((nicheMatchRatio a c : ℚ) : ℝ)
  have htot : (0:ℝ) ≤ (((s + 1) / 2 * weights.semanticSimilarity +
      nicheMatchRatio a c * weights.nicheAlignment +
      calculateAudienceMatch a c * weights.audienceMatch +
      calculateValueAlignment a c * weights.valueAlignment : ℚ) : ℝ) *
      (1 + Real.sqrt ((nicheMatchRatio a c : ℚ) : ℝ)) := by
    apply mul_nonneg
    · exact_mod_cast hbase
    · linarith
  refine ⟨rfl, ?_, ?_, scoreBreakdown_semanticSimilarity a c s,
    scoreBreakdown_nicheBoost a c s, scoreBreakdown_audienceMatch a c s,
    scoreBreakdown_valueAlignment a c s, scoreBreakdown_nicheAlignment a c s⟩
  · rw [calculateMatch_matchScore]
    exact round4R_nonneg (le_min (by norm_num) htot)
  · rw [calculateMatch_matchScore]
    exact round4R_le_one (min_le_left _ _)

/-- C1 counterexample.  With three requested values and one matching, the
stored `valueAlignment` is exactly 1/3, which is not equal to its
four-decimal rounding 0.3333 — so not every breakdown field is rounded. -/
theorem c1_breakdown_not_rounded_counterexample :
    (calculateMatch { emptyAssignment with creatorValues := some ["a", "b", "c"] }
        { emptyCreator with
          analysis := { emptyAnalysis with apparentValues := some ["a"] } }
        0).scoreBreakdown.valueAlignment = 1/3 ∧
    round4Q (1/3) ≠ 1/3 := by
  constructor
  · rw [scoreBreakdown_valueAlignment]
    simp +decide [calculateValueAlignment, emptyAssignment, emptyCreator, emptyAnalysis]
  · norm_num [round4Q, round_eq]

/-- C1 witness: the amended statement at the all-absent inputs with cosine
score 0. -/
theorem c1_composite_score_formula_witness :
    (-1 ≤ (0:ℚ) ∧ (0:ℚ) ≤ 1) ∧
    0 ≤ (calculateMatch emptyAssignment emptyCreator 0).matchScore :=
  ⟨⟨by norm_num, by norm_num⟩,
    (c1_composite_score_formula emptyAssignment emptyCreator 0 (by norm_num)
      (by norm_num)).2.1⟩

/-- C10 (confirmed).  The cap is one-sided: the rounded match score never
exceeds 1 for any rational semantic score, yet no lower clamp exists — at
semantic score −3 (below −1) the returned match score is negative. -/
theorem c10_clamp_is_one_sided :
    (∀ (a : Assignment) (c : Creator) (s : ℚ), (calculateMatch a c s).matchScore ≤ 1) ∧
    ((-3 : ℚ) < -1 ∧ (calculateMatch emptyAssignment emptyCreator (-3)).matchScore < 0) := by
  constructor
  · intro a c s
    rw [calculateMatch_matchScore]
    exact round4R_le_one (min_le_left _ _)
  · refine ⟨by norm_num, ?_⟩
    rw [calculateMatch_matchScore]
    have h0 : nicheMatchRatio emptyAssignment emptyCreator = 0 := by
      simp [nicheMatchRatio, calculateNicheAlignment, emptyAssignment]
    have haud : calculateAudienceMatch emptyAssignment emptyCreator = 0 := rfl
    have hval : calculateValueAlignment emptyAssignment emptyCreator = 0 := rfl
    rw [h0, haud, hval]
    have hbase : (((-3 : ℚ) + 1) / 2 * weights.semanticSimilarity +
        (0 : ℚ) * weights.nicheAlignment + (0 : ℚ) * weights.audienceMatch +
        (0 : ℚ) * weights.valueAlignment) = (-7/10 : ℚ) := by
      norm_num [weights]
    rw [hbase]
    have hsqrt : Real.sqrt (((0 : ℚ) : ℝ)) = 0 := by
      norm_num
    rw [hsqrt]
    have hmin : min (1 : ℝ) (((-7/10 : ℚ) : ℝ) * (1 + 0)) = ((-7/10 : ℚ) : ℝ) := by
      rw [min_eq_right] <;> push_cast <;> norm_num
    rw [hmin]
    unfold round4R
    have hr : round ((((-7/10 : ℚ)) : ℝ) * 10000) = (-7000 : ℤ) := by
      have : ((((-7/10 : ℚ)) : ℝ) * 10000) = (((-7000 : ℚ) : ℝ)) := by
        push_cast
        norm_num
      rw [this, Rat.round_cast]
      norm_num [round_eq]
    rw [hr]
    norm_num

/-- C9 counterexample.  The matcher performs no finiteness check: a NaN
semantic score propagates through `(s + 1) / 2`, so the stored
semanticSimilarity is `NaN`, not the neutral 0.5, and the match score is
`NaN` too. -/
theorem c9_nan_not_neutral_counterexample :
    (calculateMatchJS emptyAssignment emptyCreator JVal.nan).scoreBreakdown.semanticSimilarity
      = JVal.nan ∧
    (calculateMatchJS emptyAssignment emptyCreator JVal.nan).scoreBreakdown.semanticSimilarity
      ≠ JVal.num (1/2) ∧
    (calculateMatchJS emptyAssignment emptyCreator JVal.nan).matchScore = JVal.nan := by
  refine ⟨rfl, ?_, rfl⟩
  intro h
  rw [show (calculateMatchJS emptyAssignment emptyCreator JVal.nan).scoreBreakdown.semanticSimilarity
      = JVal.nan from rfl] at h
  exact JVal.noConfusion h

/-- C9 (amended).  No non-finite handling exists: a NaN semantic score
yields a NaN semanticSimilarity and match score.  Missing optional creator
fields zero exactly the factors they feed: absent niche lists give
`nicheAlignment = 0` and an absent value list gives `valueAlignment = 0`,
whatever the assignment; an absent region zeroes the locale factor, so
`audienceMatch = 0` when the assignment requests only a locale (no
demographic, no tone style).  It is not 0 for such a creator in general: a
requested demographic matching the creator's summary still scores the
audience component 0.3 with region, niches and values all absent. -/
theorem c9_nan_propagates_missing_fields_zero (a : Assignment) (c : Creator) (l : String)
    (h1 : c.analysis.primaryNiches = none) (h2 : c.analysis.secondaryNiches = none)
    (h3 : c.analysis.apparentValues = none) (h4 : c.region = none)
    (h5 : a.targetAudience = some ⟨some l, none⟩) (h6 : a.toneStyle = none) :
    (calculateMatchJS a c JVal.nan).matchScore = JVal.nan ∧
    (calculateMatchJS a c JVal.nan).scoreBreakdown.semanticSimilarity = JVal.nan ∧
    calculateNicheAlignment a c = 0 ∧
    calculateValueAlignment a c = 0 ∧
    calculateAudienceMatch a c = 0 ∧
    calculateAudienceMatch
        { emptyAssignment with targetAudience := some ⟨none, some "teen"⟩ }
        { emptyCreator with
          analysis := { emptyAnalysis with summary := some "teen fans" } } = 3/10 := by
  refine ⟨rfl, rfl, ?_, ?_, ?_, ?_⟩
  · unfold calculateNicheAlignment
    cases a.creatorNiches with
    | none => rfl
    | some ns => simp [h1, h2]
  · unfold calculateValueAlignment
    cases a.creatorValues with
    | none => rfl
    | some vs => simp [h3]
  · unfold calculateAudienceMatch
    rw [h5]
    simp [h4, h6, strTruthy]
  · simp +decide [calculateAudienceMatch, strTruthy, splitWS, splitChars, dropMidEmpty,
      containsStr, jsToLower, emptyAssignment, emptyCreator, emptyAnalysis]

/-- C9 witness: the amended statement at the all-absent creator, a
locale-only target audience and a NaN score. -/
theorem c9_nan_propagates_missing_fields_zero_witness :
    (emptyCreator.analysis.primaryNiches = none ∧ emptyCreator.region = none) ∧
    (calculateMatchJS { emptyAssignment with targetAudience := some ⟨some "US", none⟩ }
        emptyCreator JVal.nan).matchScore = JVal.nan :=
  ⟨⟨rfl, rfl⟩,
    (c9_nan_propagates_missing_fields_zero _ emptyCreator "US" rfl rfl rfl rfl rfl rfl).1⟩

/-- The sort comparator is antisymmetric: swapping the arguments negates the
result (all tie conditions are symmetric and all branch values are
differences). -/
theorem matchCompare_antisymm (a b : Match) : matchCompare b a = -matchCompare a b := by
  unfold matchCompare breakTie
  simp only
    [show (a.scoreBreakdown.nicheAlignment ≠ b.scoreBreakdown.nicheAlignment) ↔
        (b.scoreBreakdown.nicheAlignment ≠ a.scoreBreakdown.nicheAlignment) from ne_comm,
     show |a.scoreBreakdown.semanticSimilarity - b.scoreBreakdown.semanticSimilarity| =
        |b.scoreBreakdown.semanticSimilarity - a.scoreBreakdown.semanticSimilarity| from
       abs_sub_comm _ _,
     show |a.matchScore - b.matchScore| = |b.matchScore - a.matchScore| from abs_sub_comm _ _,
     show (engagementRatio b ≠ engagementRatio a) ↔
        (engagementRatio a ≠ engagementRatio b) from ne_comm]
  split_ifs <;> ring

/-- The head of an insertion step is either the inserted element or the old
head. -/
theorem insertSorted_head_cases (x : Match) (l : List Match) :
    (insertSorted x l).head? = some x ∨ (insertSorted x l).head? = l.head? := by
  cases l with
  | nil => left; rfl
  | cons y ys =>
    rw [insertSorted]
    by_cases h : matchCompare x y ≤ 0
    · left; simp [h]
    · right; simp [h]

/-- Inserting preserves the adjacent-pair comparator invariant. -/
theorem chain_insertSorted (x : Match) :
    ∀ l : List Match, List.Chain' (fun p q => matchCompare p q ≤ 0) l →
      List.Chain' (fun p q => matchCompare p q ≤ 0) (insertSorted x l)
  | [], _ => by simp [insertSorted]
  | y :: ys, hl => by
    rw [insertSorted]
    by_cases h : matchCompare x y ≤ 0
    · rw [if_pos h]
      exact List.chain'_cons.mpr ⟨h, hl⟩
    · rw [if_neg h]
      have hyx : matchCompare y x ≤ 0 := by
        have := matchCompare_antisymm x y
        push_neg at h
        linarith
    
      have htail := (List.chain'_cons'.mp hl).2
      have hhead := (List.chain'_cons'.mp hl).1
      refine List.chain'_cons'.mpr ⟨?_, chain_insertSorted x ys htail⟩
      intro z hz
      rcases insertSorted_head_cases x ys with hc | hc
      · rw [hc] at hz
        cases hz
        exact hyx
      · rw [hc] at hz
        exact hhead z hz

/-- The output of `rankMatches` satisfies the comparator invariant on every
adjacent pair. -/
theorem chain_rankMatches :
    ∀ l : List Match, List.Chain' (fun p q => matchCompare p q ≤ 0) (rankMatches l)
  | [] => by simp [rankMatches]
  | x :: xs => by
    rw [rankMatches]
    exact chain_insertSorted x (rankMatches xs) (chain_rankMatches xs)

/-- The comparator admits `a` before `b` exactly when the five-key
descending rank order of the spec holds for the pair. -/
theorem matchCompare_nonpos_iff (a b : Match) :
    matchCompare a b ≤ 0 ↔ RankedBefore a b := by
  unfold matchCompare breakTie RankedBefore
  by_cases h1 : b.scoreBreakdown.nicheAlignment = a.scoreBreakdown.nicheAlignment
  · rw [if_neg (not_not_intro h1)]
    by_cases h2 : 1/100 <
        |b.scoreBreakdown.semanticSimilarity - a.scoreBreakdown.semanticSimilarity|
    · rw [if_pos h2]
      have h2' : 1/100 <
          |a.scoreBreakdown.semanticSimilarity - b.scoreBreakdown.semanticSimilarity| := by
        rwa [abs_sub_comm]
      have hne : b.scoreBreakdown.semanticSimilarity ≠
          a.scoreBreakdown.semanticSimilarity := by
        intro he
        rw [he, sub_self, abs_zero] at h2
        linarith
      constructor
      · intro hle
        exact Or.inr ⟨h1.symm, Or.inl ⟨h2', lt_of_le_of_ne (by linarith) hne⟩⟩
      · rintro (hlt | ⟨_, ⟨_, hlt⟩ | ⟨hle', _⟩⟩)
        · exact absurd h1 (Nat.ne_of_lt hlt)
        · linarith
        · linarith
    · rw [if_neg h2]
      push_neg at h2
      have h2' : |a.scoreBreakdown.semanticSimilarity -
          b.scoreBreakdown.semanticSimilarity| ≤ 1/100 := by
        rwa [abs_sub_comm]
      by_cases h3 : 1/1000 < |b.matchScore - a.matchScore|
      · rw [if_pos h3]
        have h3' : 1/1000 < |a.matchScore - b.matchScore| := by rwa [abs_sub_comm]
        have hne : b.matchScore ≠ a.matchScore := by
          intro he
          rw [he, sub_self, abs_zero] at h3
          linarith
        constructor
        · intro hle
          exact Or.inr ⟨h1.symm,
            Or.inr ⟨h2', Or.inl ⟨h3', lt_of_le_of_ne (by linarith) hne⟩⟩⟩
        · rintro (hlt | ⟨_, ⟨habs, _⟩ | ⟨_, ⟨_, hlt⟩ | ⟨hle', _⟩⟩⟩)
          · exact absurd h1 (Nat.ne_of_lt hlt)
          · linarith
          · linarith
          · linarith
      · rw [if_neg h3]
        push_neg at h3
        have h3' : |a.matchScore - b.matchScore| ≤ 1/1000 := by rwa [abs_sub_comm]
        by_cases h4 : engagementRatio a ≠ engagementRatio b
        · rw [if_pos h4]
          constructor
          · intro hle
            exact Or.inr ⟨h1.symm, Or.inr ⟨h2', Or.inr ⟨h3',
              Or.inl (lt_of_le_of_ne (by linarith) (Ne.symm h4))⟩⟩⟩
          · rintro (hlt | ⟨_, ⟨habs, _⟩ | ⟨_, ⟨habs, _⟩ | ⟨_, hlt | ⟨heq, _⟩⟩⟩⟩)
            · exact absurd h1 (Nat.ne_of_lt hlt)
            · linarith
            · linarith
            · linarith
            · exact absurd heq h4
        · rw [if_neg h4]
          push_neg at h4
          constructor
          · intro hle
            refine Or.inr ⟨h1.symm, Or.inr ⟨h2', Or.inr ⟨h3', Or.inr ⟨h4, ?_⟩⟩⟩⟩
            have := sub_nonpos.mp hle
            exact_mod_cast this
          · rintro (hlt | ⟨_, ⟨habs, _⟩ | ⟨_, ⟨habs, _⟩ | ⟨_, hlt | ⟨_, hfc⟩⟩⟩⟩)
            · exact absurd h1 (Nat.ne_of_lt hlt)
            · linarith
            · linarith
            · linarith [h4]
            · rw [sub_nonpos]
              exact_mod_cast hfc
  · rw [if_pos (Ne.symm (fun he => h1 he.symm))]
    constructor
    · intro hle
      have hble : b.scoreBreakdown.nicheAlignment ≤ a.scoreBreakdown.nicheAlignment := by
        have := sub_nonpos.mp hle
        exact_mod_cast this
      exact Or.inl (lt_of_le_of_ne hble h1)
    · rintro (hlt | ⟨heq, _⟩)
      · rw [sub_nonpos]
        exact_mod_cast hlt.le
      · exact absurd heq.symm h1

/-- C3 (confirmed).  Every adjacent pair of the ranked output satisfies the
five-key descending order: niche count; semantic similarity up to the 0.01
tolerance; match score up to the 0.001 tolerance; engagement ratio
`heartCount / max(1, followerCount)`; follower count. -/
theorem c3_rankMatches_adjacent_order (l : List Match) :
    List.Chain' RankedBefore (rankMatches l) :=
  List.Chain'.imp (fun p q hpq => (matchCompare_nonpos_iff p q).mp hpq) (chain_rankMatches l)

/-- Insertion grows the length by one. -/
theorem insertSorted_length (x : Match) :
    ∀ l : List Match, (insertSorted x l).length = l.length + 1
  | [] => rfl
  | y :: ys => by
    rw [insertSorted]
    by_cases h : matchCompare x y ≤ 0
    · simp [h]
    · simp [h, insertSorted_length x ys]

/-- Ranking preserves the length of the list. -/
theorem rankMatches_length : ∀ l : List Match, (rankMatches l).length = l.length
  | [] => rfl
  | x :: xs => by
    rw [rankMatches, insertSorted_length, rankMatches_length xs, List.length_cons]

/-- Membership in an insertion step. -/
theorem mem_insertSorted (x m : Match) :
    ∀ l : List Match, m ∈ insertSorted x l → m = x ∨ m ∈ l
  | [], h => by
    simp [insertSorted] at h
    exact Or.inl h
  | y :: ys, h => by
    rw [insertSorted] at h
    by_cases hc : matchCompare x y ≤ 0
    · rw [if_pos hc] at h
      rcases List.mem_cons.mp h with rfl | h'
      · exact Or.inl rfl
      · exact Or.inr h'
    · rw [if_neg hc] at h
      rcases List.mem_cons.mp h with rfl | h'
      · exact Or.inr (List.mem_cons_self _ _)
      · rcases mem_insertSorted x m ys h' with h'' | h''
        · exact Or.inl h''
        · exact Or.inr (List.mem_cons_of_mem y h'')

/-- Every ranked match comes from the input list. -/
theorem mem_rankMatches (m : Match) :
    ∀ l : List Match, m ∈ rankMatches l → m ∈ l
  | [], h => by simp [rankMatches] at h
  | x :: xs, h => by
    rw [rankMatches] at h
    rcases mem_insertSorted x m (rankMatches xs) h with h' | h'
    · exact h' ▸ List.mem_cons_self x xs
    · exact List.mem_cons_of_mem x (mem_rankMatches m xs h')

/-- C4 (confirmed).  When the vector path fails terminally and the catalog
is non-empty, the response is flagged as fallback, contains
`min(3, |catalog|)` matches, and every returned match carries the neutral
semantic similarity 0.5 — the normalisation of a zero cosine — so only the
rule-based components differentiate the ranking. -/
theorem c4_fallback_response (a : Assignment) (catalog : List (String × Creator))
    (h : catalog ≠ []) :
    (matchPipeline a catalog none).isFallback = true ∧
    (matchPipeline a catalog none).matchList.length = min 3 catalog.length ∧
    ∀ m ∈ (matchPipeline a catalog none).matchList,
      m.scoreBreakdown.semanticSimilarity = 1/2 := by
  have hne : ((catalog.map Prod.snd).map fun c => calculateMatch a c 0) ≠ [] := by
    simp [h]
  have hlen : ((catalog.map Prod.snd).map fun c => calculateMatch a c 0).length =
      catalog.length := by
    simp
  have hempty : ((catalog.map Prod.snd).map fun c => calculateMatch a c 0).isEmpty = false := by
    simpa [List.isEmpty_iff] using hne
  refine ⟨?_, ?_, ?_⟩
  · simp only [matchPipeline]
    rw [if_neg (by simp [h])]
  · simp only [matchPipeline]
    rw [if_neg (by simp [h])]
    simp only [List.length_take, rankMatches_length, hlen]
  · simp only [matchPipeline]
    rw [if_neg (by simp [h])]
    intro m hm
    have hm1 : m ∈ rankMatches ((catalog.map Prod.snd).map fun c => calculateMatch a c 0) :=
      List.take_subset 3 _ hm
    have hm2 := mem_rankMatches m _ hm1
    obtain ⟨c, _, rfl⟩ := List.mem_map.mp hm2
    rw [scoreBreakdown_semanticSimilarity]
    norm_num [round4Q, round_eq]

/-- C4 witness: the fallback response over a one-creator catalog. -/
theorem c4_fallback_response_witness :
    (([("c1", emptyCreator)] : List (String × Creator)) ≠ []) ∧
    (matchPipeline emptyAssignment [("c1", emptyCreator)] none).isFallback = true :=
  ⟨by simp, (c4_fallback_response emptyAssignment [("c1", emptyCreator)] (by simp)).1⟩
